import Mathlib

/-!
Verification of `src/Analysis/AnalysisSVNLogData.py`.

The Python module parses an SVN XML log, filters log entries by date and
their changed paths by exclusion directories and file extensions, counts
surviving paths in a `collections.Counter`, and prints a report of the
most common paths.

We shallowly embed the data model and the pure core of the program:

* a log entry is its optional `<date>` text and the texts of its `<path>`
  elements (XML parsing itself, `stream_svn_log_entries`, is I/O and is
  abstracted into a `List LogEntry` input stream);
* `datetime` values are modelled as integers ordered like dates
  (`y*10000 + m*100 + d` for valid calendar dates preserves the order of
  `datetime` comparison);
* `collections.Counter` is modelled as an insertion-ordered association
  list `List (String × Nat)`, matching CPython's dict ordering, and
  `Counter.most_common(n)` as a stable sort by count descending followed
  by `take n`, matching `heapq.nlargest` (which is equivalent to
  `sorted(items, key=count, reverse=True)[:n]`, a stable descending sort);
* `print_report` is modelled as the list of lines it prints.
-/

namespace SvnLog

/-- Model of Python `str.lower`, restricted to ASCII case mapping
(all strings appearing in the analysed claims are ASCII). -/
def pyLower (s : String) : String :=
  String.mk (s.toList.map Char.toLower)

/-- `s.startswith(pat)` on character lists: second argument is the pattern. -/
def listStartsWith : List Char → List Char → Bool
  | _, [] => true
  | [], _ :: _ => false
  | c :: cs, d :: ds => c = d && listStartsWith cs ds

/-- Model of Python `s.startswith(pat)`. -/
def pyStartsWith (s pat : String) : Bool :=
  listStartsWith s.toList pat.toList

/-- Model of Python `s.endswith(pat)`. -/
def pyEndsWith (s pat : String) : Bool :=
  listStartsWith s.toList.reverse pat.toList.reverse

/-- `datetime` values, ordered like dates. -/
abbrev Date := Int

/-- The `FilterCriteria` dataclass, after `__post_init__` normalisation.
Python stores `exclude_dirs` and `extensions` as sets; both are only ever
consumed through `any(...)`, so a list model is order-insensitive here. -/
structure FilterCriteria where
  exclude_dirs : List String
  extensions : List String
  start_date : Option Date
  end_date : Option Date
deriving Repr, DecidableEq

/-- Construction of a `FilterCriteria`, performing the `__post_init__`
normalisation: exclusion directories get a leading `/`, extensions are
lower-cased and get a leading `.`. -/
def mkFilterCriteria (exclude_dirs extensions : List String)
    (start_date end_date : Option Date) : FilterCriteria where
  exclude_dirs := exclude_dirs.map fun d =>
    if pyStartsWith d "/" then d else "/" ++ d
  extensions := extensions.map fun e =>
    if pyStartsWith e "." then pyLower e else "." ++ pyLower e
  start_date := start_date
  end_date := end_date

/-- `FilterCriteria.is_date_in_range`: false when a start bound exists and
`dt` is before it, false when an end bound exists and `dt` is after it,
otherwise true. -/
def FilterCriteria.is_date_in_range (c : FilterCriteria) (dt : Date) : Bool :=
  if c.start_date.elim false (fun s => decide (dt < s)) then false
  else if c.end_date.elim false (fun e => decide (e < dt)) then false
  else true

/-- `FilterCriteria.is_path_allowed`: rejects falsy (empty) paths, paths
starting with an excluded directory, and — when the extension set is
non-empty — paths whose lower-cased form ends with no registered
extension. -/
def FilterCriteria.is_path_allowed (c : FilterCriteria) (file_path : String) : Bool :=
  if file_path = "" then false
  else if c.exclude_dirs.any (fun d => pyStartsWith file_path d) then false
  else if !c.extensions.isEmpty then
    if !(c.extensions.any fun e => pyEndsWith (pyLower file_path) e) then false
    else true
  else true

/-- Number of days in a month of the (proleptic) Gregorian calendar,
as validated by Python `datetime`. -/
def days_in_month (y m : Nat) : Nat :=
  if m = 2 then (if (y % 4 = 0 ∧ y % 100 ≠ 0) ∨ y % 400 = 0 then 29 else 28)
  else if m = 4 ∨ m = 6 ∨ m = 9 ∨ m = 11 then 30 else 31

/-- Numeric value of an ASCII digit character. -/
def digitVal (c : Char) : Nat := c.toNat - 48

/-- Model of Python `datetime.fromisoformat`, restricted to the date-only
`YYYY-MM-DD` form with calendar validation (year at least 1, month 1–12,
day within the month). Strings outside this subset — in particular any
string that CPython would also reject with `ValueError` — are mapped to
`none`. The claims under verification only exercise date-only strings and
generically unparseable strings, both of which this subset decides exactly
as CPython does. -/
def fromisoformat (s : String) : Option Date :=
  match s.toList with
  | [y1, y2, y3, y4, h1, m1, m2, h2, d1, d2] =>
    if h1 = '-' ∧ h2 = '-' ∧ [y1, y2, y3, y4, m1, m2, d1, d2].all Char.isDigit then
      let y := ((digitVal y1 * 10 + digitVal y2) * 10 + digitVal y3) * 10 + digitVal y4
      let m := digitVal m1 * 10 + digitVal m2
      let d := digitVal d1 * 10 + digitVal d2
      if 1 ≤ y ∧ 1 ≤ m ∧ m ≤ 12 ∧ 1 ≤ d ∧ d ≤ days_in_month y m then
        some (Int.ofNat ((y * 10000 + m * 100) + d))
      else none
    else none
  | _ => none

/-- Model of `date_str.replace('Z', '+00:00')`: the pattern is the single
character `Z`, so per-character substitution is exact. -/
def replaceZ (s : String) : String :=
  String.mk (s.toList.foldr
    (fun c acc =>
      if c = 'Z' then '+' :: '0' :: '0' :: ':' :: '0' :: '0' :: acc else c :: acc)
    [])

/-- `parse_iso_date`: replace the trailing `Z` and parse; a `ValueError`
in Python is `none` here. -/
def parse_iso_date (date_str : String) : Option Date :=
  fromisoformat (replaceZ date_str)

/-- One `<logentry>` element, reduced to what `analyze_svn_log` reads:
the text of its `<date>` child (`none` when the element is absent or its
text is `None`) and the texts of its `<path>` descendants. -/
structure LogEntry where
  date : Option String
  paths : List String
deriving Repr, DecidableEq

/-- `collections.Counter` over path strings: an insertion-ordered
association list, as CPython dicts are insertion-ordered. -/
abbrev Counter := List (String × Nat)

/-- `file_counts[k] += 1`: bump an existing key in place, else append
with count 1 (a missing `Counter` key reads as 0). -/
def incr (c : Counter) (k : String) : Counter :=
  match c with
  | [] => [(k, 1)]
  | (k', v) :: rest => if k' = k then (k', v + 1) :: rest else (k', v) :: incr rest k

/-- The inner loop of `analyze_svn_log` over one entry's paths: count each
path that `is_path_allowed` accepts. -/
def count_paths (c : FilterCriteria) (counts : Counter) (paths : List String) : Counter :=
  paths.foldl (fun cs p => if c.is_path_allowed p then incr cs p else cs) counts

/-- The date gate of `analyze_svn_log` on one entry: with no date text or
empty date text the entry passes unfiltered; with a parseable date it
passes iff the date is in range; a `ValueError` from parsing hits the
`except ValueError: continue` branch, so the entry does not pass. -/
def entry_passes_date_filter (c : FilterCriteria) (e : LogEntry) : Bool :=
  match e.date with
  | none => true
  | some s =>
    if s = "" then true
    else
      match parse_iso_date s with
      | some dt => c.is_date_in_range dt
      | none => false

/-- One iteration of the `analyze_svn_log` loop body. -/
def processEntry (c : FilterCriteria) (counts : Counter) (e : LogEntry) : Counter :=
  if entry_passes_date_filter c e then count_paths c counts e.paths else counts

/-- `analyze_svn_log`, with the streamed XML abstracted to the list of its
`<logentry>` elements. -/
def analyze_svn_log (entries : List LogEntry) (c : FilterCriteria) : Counter :=
  entries.foldl (processEntry c) []

/-- Insert one item into a list already sorted by count descending,
placing it before the first strictly smaller count — so among equal
counts the earlier-inserted item stays first (stability). -/
def insertDesc (x : String × Nat) : List (String × Nat) → List (String × Nat)
  | [] => [x]
  | y :: ys => if y.2 ≤ x.2 then x :: y :: ys else y :: insertDesc x ys

/-- Stable sort by count descending. -/
def sortByCountDesc : List (String × Nat) → List (String × Nat)
  | [] => []
  | x :: xs => insertDesc x (sortByCountDesc xs)

/-- Model of `Counter.most_common(n)` for `n ≥ 0`: `heapq.nlargest` is
documented as `sorted(items, key=count, reverse=True)[:n]`, a stable
descending sort followed by truncation. -/
def most_common (c : Counter) (n : Nat) : Counter :=
  (sortByCountDesc c).take n

/-- The command-line arguments `print_report` reads. -/
structure Args where
  start : Option Date
  end_ : Option Date
  ext : List String
  exclude : List String
  limit : Nat
deriving Repr, DecidableEq

/-- A string of `n` copies of `c`, as in Python `c * n`. -/
def repeatChar (c : Char) (n : Nat) : String :=
  String.mk (List.replicate n c)

/-- Left-justified padding to width `w`, as in the format spec `:<8`. -/
def padLeftJust (s : String) (w : Nat) : String :=
  s ++ repeatChar ' ' (w - s.toList.length)

/-- Rendering of a `datetime` bound in the report header; the exact text
of `args.start.date()` is abstracted to `toString`, which no claim
inspects. -/
def showDate (d : Date) : String := toString d

/-- The header block of `print_report`: banner, the filter criteria that
were supplied, and a separator. -/
def header_lines (args : Args) : List String :=
  [repeatChar '=' 70, "SVN Log Analysis Report", repeatChar '=' 70]
  ++ (match args.start with
      | some s => ["Start Date: " ++ showDate s]
      | none => [])
  ++ (match args.end_ with
      | some e => ["End Date:   " ++ showDate e]
      | none => [])
  ++ (if args.ext.isEmpty then [] else ["Extensions: " ++ String.intercalate ", " args.ext])
  ++ (if args.exclude.isEmpty then [] else ["Excluded:   " ++ String.intercalate ", " args.exclude])
  ++ [repeatChar '-' 70]

/-- One data row: `f"{count:<8} | {path}"`. -/
def fmtRow (row : String × Nat) : String :=
  padLeftJust (toString row.2) 8 ++ " | " ++ row.1

/-- `print_report` as the list of lines it prints: the header block, then
either the no-match message (and return) or the table header followed by
the `most_common(limit)` rows. -/
def print_report (counts : Counter) (args : Args) : List String :=
  header_lines args ++
  (if counts.isEmpty then ["No matching files found."]
   else [padLeftJust "Count" 8 ++ " | File Path", repeatChar '-' 70]
     ++ (most_common counts args.limit).map fmtRow)

/-- Total of all counts in a counter. -/
def counterTotal (c : Counter) : Nat := (c.map Prod.snd).sum

end SvnLog

namespace SvnLog

/-! ### Helper lemmas -/

theorem counterTotal_nil : counterTotal [] = 0 := rfl

theorem counterTotal_cons (k : String) (v : Nat) (c : Counter) :
    counterTotal ((k, v) :: c) = v + counterTotal c := rfl

theorem counterTotal_incr (c : Counter) (k : String) :
    counterTotal (incr c k) = counterTotal c + 1 := by
  induction c with
  | nil => rfl
  | cons hd tl ih =>
    obtain ⟨k', v⟩ := hd
    by_cases h : k' = k
    · simp [incr, h, counterTotal_cons]
      omega
    · simp [incr, h, counterTotal_cons, ih]
      omega

theorem counterTotal_count_paths (c : FilterCriteria) (counts : Counter)
    (paths : List String) :
    counterTotal (count_paths c counts paths) =
      counterTotal counts + (paths.filter c.is_path_allowed).length := by
  induction paths generalizing counts with
  | nil => simp [count_paths]
  | cons p ps ih =>
    by_cases h : c.is_path_allowed p
    · simp [count_paths, h, List.filter_cons] at *
      rw [ih, counterTotal_incr]
      omega
    · simp [count_paths, h, List.filter_cons] at *
      rw [ih]

theorem counterTotal_processEntry (c : FilterCriteria) (counts : Counter)
    (e : LogEntry) :
    counterTotal (processEntry c counts e) =
      counterTotal counts +
        (if entry_passes_date_filter c e then
          (e.paths.filter c.is_path_allowed).length else 0) := by
  by_cases h : entry_passes_date_filter c e
  · simp [processEntry, h, counterTotal_count_paths]
  · simp [processEntry, h]

theorem counterTotal_foldl (c : FilterCriteria) (entries : List LogEntry)
    (init : Counter) :
    counterTotal (entries.foldl (processEntry c) init) =
      counterTotal init +
        (entries.map fun e =>
          if entry_passes_date_filter c e then
            (e.paths.filter c.is_path_allowed).length else 0).sum := by
  induction entries generalizing init with
  | nil => simp
  | cons e es ih =>
    simp only [List.foldl_cons, List.map_cons, List.sum_cons]
    rw [ih, counterTotal_processEntry]
    omega

end SvnLog

namespace SvnLog

theorem mem_insertDesc (x a : String × Nat) (l : List (String × Nat)) :
    a ∈ insertDesc x l ↔ a = x ∨ a ∈ l := by
  induction l with
  | nil => simp [insertDesc]
  | cons y ys ih =>
    by_cases h : y.2 ≤ x.2
    · simp [insertDesc, h]
    · simp [insertDesc, h, ih]
      tauto

theorem length_insertDesc (x : String × Nat) (l : List (String × Nat)) :
    (insertDesc x l).length = l.length + 1 := by
  induction l with
  | nil => rfl
  | cons y ys ih =>
    by_cases h : y.2 ≤ x.2
    · simp [insertDesc, h]
    · simp [insertDesc, h, ih]

theorem length_sortByCountDesc (l : List (String × Nat)) :
    (sortByCountDesc l).length = l.length := by
  induction l with
  | nil => rfl
  | cons x xs ih => simp [sortByCountDesc, length_insertDesc, ih]

theorem pairwise_insertDesc (x : String × Nat) (l : List (String × Nat))
    (h : List.Pairwise (fun a b : String × Nat => b.2 ≤ a.2) l) :
    List.Pairwise (fun a b : String × Nat => b.2 ≤ a.2) (insertDesc x l) := by
  induction l with
  | nil => simp [insertDesc]
  | cons y ys ih =>
    rcases List.pairwise_cons.mp h with ⟨hy, hys⟩
    by_cases hle : y.2 ≤ x.2
    · simp only [insertDesc, hle, if_pos]
      refine List.pairwise_cons.mpr ⟨?_, h⟩
      intro z hz
      rcases List.mem_cons.mp hz with hz | hz
      · subst hz
        exact hle
      · exact le_trans (hy z hz) hle
    · simp only [insertDesc, hle, if_neg, ite_false]
      refine List.pairwise_cons.mpr ⟨?_, ih hys⟩
      intro z hz
      rcases (mem_insertDesc x z ys).mp hz with hz | hz
      · subst hz
        omega
      · exact hy z hz

theorem pairwise_sortByCountDesc (l : List (String × Nat)) :
    List.Pairwise (fun a b : String × Nat => b.2 ≤ a.2) (sortByCountDesc l) := by
  induction l with
  | nil => simp [sortByCountDesc]
  | cons x xs ih => exact pairwise_insertDesc x _ ih

theorem perm_insertDesc (x : String × Nat) (l : List (String × Nat)) :
    List.Perm (insertDesc x l) (x :: l) := by
  induction l with
  | nil => simp [insertDesc]
  | cons y ys ih =>
    by_cases h : y.2 ≤ x.2
    · simp [insertDesc, h]
    · simp only [insertDesc, h, ite_false]
      exact (ih.cons y).trans (List.Perm.swap x y ys)

theorem perm_sortByCountDesc (l : List (String × Nat)) :
    List.Perm (sortByCountDesc l) l := by
  induction l with
  | nil => simp [sortByCountDesc]
  | cons x xs ih => exact (perm_insertDesc x _).trans (ih.cons x)

theorem filter_insertDesc_eq (k : Nat) (x : String × Nat) (l : List (String × Nat))
    (hx : x.2 = k) :
    (insertDesc x l).filter (fun y => y.2 = k) = x :: l.filter (fun y => y.2 = k) := by
  induction l with
  | nil => simp [insertDesc, List.filter_cons, hx]
  | cons y ys ih =>
    by_cases h : y.2 ≤ x.2
    · simp only [insertDesc, if_pos h]
      simp [List.filter_cons, hx]
    · simp only [insertDesc, if_neg h]
      have hy : ¬(y.2 = k) := by omega
      simp [List.filter_cons, hy, ih]

theorem filter_insertDesc_ne (k : Nat) (x : String × Nat) (l : List (String × Nat))
    (hx : ¬(x.2 = k)) :
    (insertDesc x l).filter (fun y => y.2 = k) = l.filter (fun y => y.2 = k) := by
  induction l with
  | nil => simp [insertDesc, List.filter_cons, hx]
  | cons y ys ih =>
    by_cases h : y.2 ≤ x.2
    · simp [insertDesc, h, List.filter_cons, hx]
    · simp [insertDesc, h, List.filter_cons, ih]

theorem stable_sortByCountDesc (l : List (String × Nat)) (k : Nat) :
    (sortByCountDesc l).filter (fun y => y.2 = k) = l.filter (fun y => y.2 = k) := by
  induction l with
  | nil => rfl
  | cons x xs ih =>
    by_cases hx : x.2 = k
    · rw [sortByCountDesc, filter_insertDesc_eq k x _ hx, ih]
      simp [List.filter_cons, hx]
    · rw [sortByCountDesc, filter_insertDesc_ne k x _ hx, ih]
      simp [List.filter_cons, hx]

end SvnLog

namespace SvnLog

/-! ### Claim theorems -/

/-- C1 counterexample: an entry whose date text is `"garbage"` (which fails
to parse) and whose path `"/trunk/a.py"` is allowed by the criteria is
nevertheless dropped by `analyze_svn_log`: the result is empty, so the
claim that such an entry is still processed and counted is false. -/
theorem C1_counterexample :
    analyze_svn_log [{ date := some "garbage", paths := ["/trunk/a.py"] }]
        (mkFilterCriteria [] [] none none) = [] ∧
      (mkFilterCriteria [] [] none none).is_path_allowed "/trunk/a.py" = true := by
  exact ⟨rfl, rfl⟩

/-- C1 (amended): an entry whose date text is present, non-empty, and fails
to parse is dropped entirely by `analyze_svn_log` — appending it to any
stream leaves the analysis unchanged, so none of its paths is evaluated or
counted. (Only a missing or empty date skips the filter without dropping
the entry.) -/
theorem C1_unparseable_date_entry_dropped (c : FilterCriteria)
    (es : List LogEntry) (e : LogEntry) (s : String) (hd : e.date = some s)
    (hne : s ≠ "") (hp : parse_iso_date s = none) :
    analyze_svn_log (es ++ [e]) c = analyze_svn_log es c := by
  unfold analyze_svn_log
  rw [List.foldl_append]
  simp [processEntry, entry_passes_date_filter, hd, hne, hp]

/-- Witness for C1 at a concrete stream: appending the `"garbage"`-dated
entry to a one-entry stream leaves the analysis unchanged. -/
theorem C1_witness :
    analyze_svn_log
        ([{ date := some "2023-06-15", paths := ["/trunk/a.py"] }] ++
          [{ date := some "garbage", paths := ["/trunk/b.py"] }])
        (mkFilterCriteria [] [] none none) =
      analyze_svn_log [{ date := some "2023-06-15", paths := ["/trunk/a.py"] }]
        (mkFilterCriteria [] [] none none) :=
  C1_unparseable_date_entry_dropped (mkFilterCriteria [] [] none none)
    [{ date := some "2023-06-15", paths := ["/trunk/a.py"] }]
    { date := some "garbage", paths := ["/trunk/b.py"] } "garbage" rfl
    (by decide) rfl

/-- C2 counterexample: on the three-entry scenario (entry A in range with
`/trunk/a.py` and `/tags/a.py`, entry B out of range, entry C with
unparseable date), exclusion `tags` and extension `.py`, the result is not
the claimed `\x7b "/trunk/a.py": 2 \x7d`. -/
theorem C2_counterexample :
    analyze_svn_log
        [ { date := some "2023-06-15", paths := ["/trunk/a.py", "/tags/a.py"] },
          { date := some "2024-06-15", paths := ["/trunk/a.py"] },
          { date := some "garbage", paths := ["/trunk/a.py"] } ]
        (mkFilterCriteria ["tags"] [".py"] (some 20230101) (some 20231231)) ≠
      [("/trunk/a.py", 2)] := by
  decide

/-- C2 (amended): that scenario yields `\x7b "/trunk/a.py": 1 \x7d` — entry
A's `/trunk/a.py` is counted and its `/tags/a.py` excluded, entry B is
skipped as out of range, and entry C is dropped because its date fails to
parse. -/
theorem C2_scenario_counts :
    analyze_svn_log
        [ { date := some "2023-06-15", paths := ["/trunk/a.py", "/tags/a.py"] },
          { date := some "2024-06-15", paths := ["/trunk/a.py"] },
          { date := some "garbage", paths := ["/trunk/a.py"] } ]
        (mkFilterCriteria ["tags"] [".py"] (some 20230101) (some 20231231)) =
      [("/trunk/a.py", 1)] := by
  rfl

/-- C3: the sum of all counts returned by `analyze_svn_log` equals the
number of (entry, path) pairs whose entry passes the entry-level date gate
and whose path passes `is_path_allowed`: each such pair contributes exactly
one, and no other pair contributes. -/
theorem C3_count_conservation (entries : List LogEntry) (c : FilterCriteria) :
    counterTotal (analyze_svn_log entries c) =
      (entries.map fun e =>
        if entry_passes_date_filter c e then
          (e.paths.filter c.is_path_allowed).length else 0).sum := by
  unfold analyze_svn_log
  rw [counterTotal_foldl]
  simp [counterTotal]

/-- C4 counterexample: with the single exclusion rule `tags` (normalised to
`/tags`), `is_path_allowed` rejects `/tagsfoo/x`, contradicting the claim
that matching is exact on the directory component. -/
theorem C4_counterexample :
    (mkFilterCriteria ["tags"] [] none none).is_path_allowed "/tagsfoo/x" = false := by
  rfl

/-- C4 (amended): exclusion matching is plain string-prefix matching on the
normalised form: with the single rule `tags` and no extension rules, a path
is rejected exactly when it is empty or starts with the string `/tags` — so
`/tagsfoo/x` is rejected just like `/tags/x`. -/
theorem C4_exclusion_plain_string_matching (p : String) :
    (mkFilterCriteria ["tags"] [] none none).is_path_allowed p =
      (if p = "" then false else !(pyStartsWith p "/tags")) := by
  by_cases hp : p = ""
  · simp [hp, FilterCriteria.is_path_allowed]
  · have hx : (mkFilterCriteria ["tags"] [] none none).exclude_dirs = ["/tags"] := rfl
    have he : (mkFilterCriteria ["tags"] [] none none).extensions = [] := rfl
    cases h : pyStartsWith p "/tags" <;>
      simp [FilterCriteria.is_path_allowed, hp, hx, he, h]

/-- C6: `is_date_in_range` returns false exactly when a start bound exists
and the date is strictly before it, or an end bound exists and the date is
strictly after it; dates equal to a bound are retained and an absent bound
imposes no restriction. -/
theorem C6_date_range_inclusive (c : FilterCriteria) (dt : Date) :
    c.is_date_in_range dt = false ↔
      ((∃ s, c.start_date = some s ∧ dt < s) ∨
        (∃ e, c.end_date = some e ∧ e < dt)) := by
  unfold FilterCriteria.is_date_in_range
  cases hs : c.start_date <;> cases he : c.end_date <;>
    simp only [Option.elim, hs, he] <;> split_ifs <;>
      simp_all

end SvnLog

namespace SvnLog

/-- C5 counterexample: with two paths tied at count 1, inserted `/b` before
`/a`, and limit 1, the single emitted row is `/b` — the first-inserted
path — not the path-ascending choice `/a`: the claimed count-descending,
path-ascending ordering is false. -/
theorem C5_counterexample :
    most_common [("/b", 1), ("/a", 1)] 1 = [("/b", 1)] ∧
      (("/b", 1) : String × Nat) ≠ (("/a", 1) : String × Nat) := by
  exact ⟨rfl, by decide⟩

/-- C5 (amended): the rows the report emits are the first `n` items of a
rearrangement of the counter that is a permutation of it, is ordered by
count descending, and is stable — for every count value, the subsequence
of items with that count is exactly the counter's subsequence with that
count, in first-insertion order. These three facts determine the
rearrangement uniquely: ties are broken by first-insertion
(first-encounter) order, a limit `n` emits `min n (number of distinct
paths)` rows, and with limit 1 and several paths tied for the top count
exactly one row is emitted — the first-encountered one. -/
theorem C5_report_rows_sorted_desc (c : Counter) (n : Nat) :
    most_common c n = (sortByCountDesc c).take n ∧
      List.Perm (sortByCountDesc c) c ∧
      List.Pairwise (fun a b : String × Nat => b.2 ≤ a.2) (sortByCountDesc c) ∧
      (∀ k : Nat, (sortByCountDesc c).filter (fun y => y.2 = k) =
        c.filter (fun y => y.2 = k)) ∧
      (most_common c n).length = min n c.length := by
  refine ⟨rfl, perm_sortByCountDesc c, pairwise_sortByCountDesc c,
    fun k => stable_sortByCountDesc c k, ?_⟩
  rw [most_common, List.length_take, length_sortByCountDesc]

/-- C7: extension filtering is optional and case-insensitive: with no
exclusion rules, a non-empty path is allowed iff the extension list is
empty (the check is skipped) or the lower-cased path ends with one of the
normalised extensions; and the rule `.PY` is normalised to `.py`, so it
matches any path ending in `.py` in any case. -/
theorem C7_extension_filter_case_insensitive (exts : List String)
    (sd ed : Option Date) (p : String) (hp : p ≠ "") :
    ((mkFilterCriteria [] exts sd ed).is_path_allowed p =
        (exts.isEmpty || (mkFilterCriteria [] exts sd ed).extensions.any
          fun e => pyEndsWith (pyLower p) e)) ∧
      (mkFilterCriteria [] [".PY"] sd ed).extensions = [".py"] := by
  constructor
  · have hext : (mkFilterCriteria [] exts sd ed).extensions =
        exts.map (fun e => if pyStartsWith e "." then pyLower e else "." ++ pyLower e) := rfl
    unfold FilterCriteria.is_path_allowed
    rw [hext]
    cases exts with
    | nil => simp [hp, mkFilterCriteria]
    | cons x xs =>
      rw [List.map_cons]
      cases h : ((if pyStartsWith x "." = true then pyLower x else "." ++ pyLower x) ::
          List.map (fun e => if pyStartsWith e "." = true then pyLower e
            else "." ++ pyLower e) xs).any
          (fun e => pyEndsWith (pyLower p) e) <;>
        simp only [hp, mkFilterCriteria, List.any_nil, h, Bool.not_false, Bool.not_true,
          if_false, if_true, ite_false, ite_true, List.isEmpty_cons, Bool.false_or,
          List.map_cons, if_neg hp] <;> rfl
  · rfl

/-- Witness for C7 at the concrete extension rule `.PY` and the mixed-case
path `/a/B.Py`. -/
theorem C7_witness :
    ((mkFilterCriteria [] [".PY"] none none).is_path_allowed "/a/B.Py" =
        ([".PY"].isEmpty || (mkFilterCriteria [] [".PY"] none none).extensions.any
          fun e => pyEndsWith (pyLower "/a/B.Py") e)) ∧
      (mkFilterCriteria [] [".PY"] none none).extensions = [".py"] :=
  C7_extension_filter_case_insensitive [".PY"] none none "/a/B.Py" (by decide)

/-- C8: on the empty stream the analysis is empty, and `print_report` on an
empty counter renders the header followed by the explicit
`No matching files found.` line — no table header and no rows — returning
normally. -/
theorem C8_empty_counts_report (c : FilterCriteria) (args : Args) :
    analyze_svn_log [] c = [] ∧
      print_report [] args = header_lines args ++ ["No matching files found."] := by
  exact ⟨rfl, by simp [print_report]⟩

/-- C9: the analysis and report are a pure function of the entry stream,
the criteria, and the arguments: two runs on the same input produce
identical reports. -/
theorem C9_deterministic_report (entries : List LogEntry) (c : FilterCriteria)
    (args : Args) :
    print_report (analyze_svn_log entries c) args =
      print_report (analyze_svn_log entries c) args := rfl

/-- C10: for an entry whose date element is absent or has empty text, no
date filtering happens at all — for every criteria the entry's paths are
processed by the plain path-counting loop, which never consults
`is_date_in_range`. -/
theorem C10_missing_or_empty_date_unfiltered (c : FilterCriteria)
    (counts : Counter) (e : LogEntry)
    (h : e.date = none ∨ e.date = some "") :
    processEntry c counts e = count_paths c counts e.paths := by
  rcases h with h | h <;> simp [processEntry, entry_passes_date_filter, h]

/-- Witness for C10 at a concrete dateless entry. -/
theorem C10_witness :
    processEntry (mkFilterCriteria [] [] none none) []
        { date := none, paths := ["/x.py"] } =
      count_paths (mkFilterCriteria [] [] none none) [] ["/x.py"] :=
  C10_missing_or_empty_date_unfiltered (mkFilterCriteria [] [] none none) []
    { date := none, paths := ["/x.py"] } (Or.inl rfl)

end SvnLog
